import Mathlib

set_option linter.unusedVariables false

/-!
Verification of the spt-assistant streaming voice-assistant pipeline.

This file contains a shallow embedding, in Lean 4, of the parts of the
code base that the specification's claims talk about:

* `Vad` — the VAD/STT worker: PCM s16le decoding
  (`vad_stt_worker/audio_processor.py`, `_convert_pcm_s16le_to_float32`),
  the per-window speech segmentation loop (`AudioProcessor.process_audio_chunk`),
  and the worker's barge-in / transcript publication logic
  (`vad_stt_worker/main.py`, `process_audio_messages_from_redis`,
  `publish_transcript`, `check_tts_active`).
* `Orch` — the LLM orchestrator: history trimming, the tool-recursion loop
  with sentence segmentation (`llm_orchestrator_worker/main.py`,
  `process_llm_interaction`), and the per-conversation cancellation-event
  dictionary (`llm_orchestrator_worker/llm_service.py`, `LLMService`).
* `Tts` — the TTS worker: the per-item synthesis/publication protocol
  (`tts_worker/main.py`, `_execute_single_tts_item`), the per-conversation
  FIFO queue processor (`_process_conversation_tts_queue`) and request
  enqueueing (`process_tts_request`).
* `Api` — the admin HTTP config endpoints
  (`app/api/v1/endpoints/conversations.py`).

External operators (the Silero VAD model, the Whisper ASR model, the LLM
stream, the TTS synthesizer, the NLTK sentence tokenizer, the JSON codec
used for tool results) are black boxes in the source and are parameters of
the embedding.  The asyncio code is single-threaded and the modelled
functions are awaited to completion at the modelled points, so loops that
the source writes with `await` become ordinary recursion; Redis publishes
are modelled as reliable (the source logs and swallows publish errors).
Machine floats (PCM samples) are modelled as rationals: every value the
decoder can produce, `k / 32768` with `-32768 ≤ k ≤ 32767`, is exactly
representable in float32, so the rational model is exact.  Wall-clock
timestamps carried in event payloads are irrelevant to every claim and are
omitted from the event types.
-/

namespace Vad

/-- Little-endian signed 16-bit value of a byte pair, as in
`np.frombuffer(..., dtype=np.int16)`: `lo + 256 * hi`, reduced mod `2^16`
and mapped into `[-32768, 32767]`. -/
def toInt16 (lo hi : Nat) : Int :=
  let v := ((lo % 256) + 256 * (hi % 256)) % 65536
  if v < 32768 then (v : Int) else (v : Int) - 65536

/-- Decode consecutive byte pairs as little-endian int16 samples; a trailing
unpaired byte yields nothing (the caller has already dropped it for
odd-length input, and pairing from the front cannot consume it anyway). -/
def decodePairs : List Nat → List Int
  | lo :: hi :: rest => toInt16 lo hi :: decodePairs rest
  | _ => []

/-- Embedding of `AudioProcessor._convert_pcm_s16le_to_float32`
(`vad_stt_worker/audio_processor.py` lines 210-227): empty input yields an
empty array; an odd-length input has its final byte truncated; each int16
sample is scaled by `1 / 32768.0`.  Bytes are naturals; values `≥ 256`
cannot occur for real bytes and are reduced mod 256 in `toInt16`. -/
def convert_pcm_s16le_to_float32 (pcm : List Nat) : List ℚ :=
  if pcm = [] then []
  else
    let pcm := if pcm.length % 2 ≠ 0 then pcm.dropLast else pcm
    (decodePairs pcm).map (fun v : Int => (v : ℚ) / 32768)

/-- VAD window size in samples: `VAD_WINDOW_SIZE_SAMPLES = 512`
(32 ms at 16 kHz). -/
def VAD_WINDOW_SIZE_SAMPLES : Nat := 512

/-- `int(PRE_ROLL_MS // frame_duration_ms)` with `PRE_ROLL_MS = 150` and
`frame_duration_ms = 512 / 16000 * 1000 = 32.0`, so `150 // 32.0 = 4`. -/
def numPreRollFrames : Nat := 150 / 32

/-- `int(MIN_DURATION_FOR_PROPER_START_S * target_sample_rate)`
`= int(0.75 * 16000) = 12000`. -/
def minSamplesForProperStart : Nat := 12000

/-- Events yielded by `AudioProcessor.process_audio_chunk`.  The source
yields dicts keyed by `event_type`; the wall-clock `timestamp_ms` field is
omitted. -/
inductive APEvent where
  | vad_event (status : String)
  | transcript (text : String) (is_final : Bool)
  | procError (message : String)
deriving DecidableEq

/-- Result dict of the Silero `VADIterator`: presence of the `start` / `end`
keys in `speech_dict` (`None` is modelled by both flags false). -/
structure SpeechDict where
  hasStart : Bool
  hasEnd : Bool
deriving DecidableEq

/-- Mutable state of one `AudioProcessor` instance, over an abstract VAD
iterator state `V` (the Silero model's internal state). -/
structure APState (V : Type) where
  vadState : V
  vad_processing_buffer : List ℚ
  ring_buffer : List (List ℚ)
  utterance_audio_buffer : List ℚ
  is_speech_triggered : Bool
  proper_start_sent : Bool

/-- Fresh processor state (`AudioProcessor.__init__`): empty buffers,
untriggered. -/
def initAPState {V : Type} (v : V) : APState V :=
  { vadState := v
    vad_processing_buffer := []
    ring_buffer := []
    utterance_audio_buffer := []
    is_speech_triggered := false
    proper_start_sent := false }

/-- `collections.deque(maxlen = n).append`: append right, dropping from the
left when over capacity. -/
def dequeAppend (maxlen : Nat) (q : List (List ℚ)) (x : List ℚ) : List (List ℚ) :=
  let q := q ++ [x]
  if maxlen < q.length then q.drop (q.length - maxlen) else q

/-- One iteration of the `while len(buffer) >= VAD_WINDOW_SIZE_SAMPLES`
loop body in `AudioProcessor.process_audio_chunk`
(`audio_processor.py` lines 261-383), for one 512-sample window `w`.
`vad` is the black-box `VADIterator` (its exceptions are the `Except.error`
branch); `asr` is the black-box Whisper transcription returning the word
list whose `" ".join` the source publishes (its exceptions likewise). -/
def processWindow {V : Type} (vad : V → List ℚ → V × Except String SpeechDict)
    (asr : List ℚ → Except String (List String))
    (s : APState V) (w : List ℚ) : APState V × List APEvent :=
  let vr := vad s.vadState w
  let s := { s with vadState := vr.1 }
  match vr.2 with
  | .error e => (s, [APEvent.procError ("VAD processing error: " ++ e)])
  | .ok sd =>
    let s :=
      if sd.hasStart && !s.is_speech_triggered then
        { s with is_speech_triggered := true
                 proper_start_sent := false
                 utterance_audio_buffer := s.ring_buffer.flatten ++ s.utterance_audio_buffer
                 ring_buffer := [] }
      else s
    let se :=
      if s.is_speech_triggered then
        let s := { s with utterance_audio_buffer := s.utterance_audio_buffer ++ w }
        if minSamplesForProperStart ≤ s.utterance_audio_buffer.length
            && !s.proper_start_sent then
          ({ s with proper_start_sent := true },
           [APEvent.vad_event "barge_in_start", APEvent.vad_event "proper_speech_start"])
        else
          (s, [APEvent.vad_event "barge_in_start"])
      else
        ({ s with ring_buffer := dequeAppend numPreRollFrames s.ring_buffer w },
         ([] : List APEvent))
    let s := se.1
    let evs := se.2
    if sd.hasEnd && s.is_speech_triggered then
      let s := { s with is_speech_triggered := false }
      let se2 :=
        if minSamplesForProperStart ≤ s.utterance_audio_buffer.length then
          match asr s.utterance_audio_buffer with
          | .ok words =>
            let full_text := String.intercalate " " words
            if full_text ≠ "" then (s, [APEvent.transcript full_text true])
            else (s, ([] : List APEvent))
          | .error e => (s, [APEvent.procError ("STT processing error: " ++ e)])
        else
          (s, [APEvent.vad_event "speech_false_detection"])
      ({ se2.1 with utterance_audio_buffer := [], proper_start_sent := false },
       evs ++ se2.2)
    else
      (s, evs)

/-- Split a buffer into complete 512-sample windows plus the remainder
(the source's `while` loop consumes `take 512` / keeps `drop 512`). -/
def splitWindows (buf : List ℚ) : List (List ℚ) × List ℚ :=
  if h : VAD_WINDOW_SIZE_SAMPLES ≤ buf.length then
    let w := buf.take VAD_WINDOW_SIZE_SAMPLES
    let (ws, r) := splitWindows (buf.drop VAD_WINDOW_SIZE_SAMPLES)
    (w :: ws, r)
  else ([], buf)
termination_by buf.length
decreasing_by
  simp only [List.length_drop]
  have : 0 < VAD_WINDOW_SIZE_SAMPLES := by decide
  omega

/-- Embedding of `AudioProcessor.process_audio_chunk`
(`audio_processor.py` lines 249-384): decode the raw PCM bytes, extend the
VAD buffer, and run the window loop over every complete 512-sample window,
collecting the yielded events in order. -/
def process_audio_chunk {V : Type} (vad : V → List ℚ → V × Except String SpeechDict)
    (asr : List ℚ → Except String (List String))
    (s : APState V) (raw : List Nat) : APState V × List APEvent :=
  let decoded := convert_pcm_s16le_to_float32 raw
  if decoded = [] then (s, [])
  else
    let s := { s with vad_processing_buffer := s.vad_processing_buffer ++ decoded }
    let wr := splitWindows s.vad_processing_buffer
    let s := { s with vad_processing_buffer := wr.2 }
    wr.1.foldl
      (fun acc w =>
        let r := processWindow vad asr acc.1 w
        (r.1, acc.2 ++ r.2))
      (s, ([] : List APEvent))

/-- Messages the VAD/STT worker publishes on Redis: transcript payloads on
the transcript channel and `barge_in_detected` payloads on the barge-in
channel (`vad_stt_worker/main.py`). -/
inductive WorkerPub where
  | transcript_message (msg_type : String) (transcript : String) (is_final : Bool)
  | barge_in_detected
deriving DecidableEq

/-- Embedding of `check_tts_active` (`vad_stt_worker/main.py` lines 40-47):
whether the `tts_active_state:{id}` key exists in the keystore. -/
def check_tts_active (ttsActiveKeyExists : Bool) : Bool :=
  ttsActiveKeyExists

/-- Embedding of `publish_transcript` (`vad_stt_worker/main.py` lines
49-69): empty non-final transcripts are dropped; otherwise the payload type
is `final_transcript` or `partial_transcript` according to `is_final`. -/
def publish_transcript (transcript : String) (is_final : Bool) : List WorkerPub :=
  if transcript.trim = "" ∧ is_final = false then []
  else
    [WorkerPub.transcript_message
      (if is_final then "final_transcript" else "partial_transcript") transcript is_final]

/-- The per-event body of the `for event in processor.process_audio_chunk`
loop in `process_audio_messages_from_redis` (`vad_stt_worker/main.py` lines
256-287).  State threaded through is `has_signaled_barge_in_for_conv[cid]`.
`ttsActiveKeyExists` is the keystore's TTS-active flag, which the source
has available through `check_tts_active` but does NOT consult: line 271
reads `tts_is_currently_active = True #await check_tts_active(...)` — the
check is commented out, and the embedding reproduces that hard-coded
`True`. -/
def handleProcessorEvent (ttsActiveKeyExists : Bool) (hasSignaledBargeIn : Bool)
    (e : APEvent) : Bool × List WorkerPub :=
  match e with
  | .transcript text isFin =>
    (false, publish_transcript text isFin)
  | .vad_event status =>
    if (status = "proper_speech_start" ∨ status = "barge_in_start")
        ∧ hasSignaledBargeIn = false then
      let tts_is_currently_active := true
      if tts_is_currently_active then (true, [WorkerPub.barge_in_detected])
      else (hasSignaledBargeIn, [])
    else (hasSignaledBargeIn, [])
  | .procError _ => (hasSignaledBargeIn, [])

/-- Process a list of `AudioProcessor` events through the worker's
event-handling loop, threading the barge-in latch and concatenating all
publications in order. -/
def handleProcessorEvents (ttsActiveKeyExists : Bool) :
    Bool → List APEvent → Bool × List WorkerPub
  | flag, [] => (flag, [])
  | flag, e :: rest =>
    let (flag', pubs) := handleProcessorEvent ttsActiveKeyExists flag e
    let (flag'', pubs') := handleProcessorEvents ttsActiveKeyExists flag' rest
    (flag'', pubs ++ pubs')

/-- A transcript event violating the property claimed of this worker:
non-final, or with empty text. -/
def badTranscript : APEvent → Bool
  | .transcript text isFin => !isFin || text == ""
  | _ => false

/-- A published transcript payload violating the property: wrong type tag,
non-final flag, or empty text. -/
def badPublishedTranscript : WorkerPub → Bool
  | .transcript_message ty text isFin => ty != "final_transcript" || !isFin || text == ""
  | .barge_in_detected => false

end Vad

namespace Orch

/-- A fully assembled LLM tool call (`llm_service.py` assembles id, function
name and the accumulated argument string before yielding the dict). -/
structure ToolCall where
  id : String
  name : String
  arguments : String
deriving DecidableEq

/-- One entry of the conversation history (`llm_service.Message`): a dict
with `role`, optional `content`, optional `tool_calls` (absent modelled as
`[]`), optional `tool_call_id` and `name` for tool-result messages. -/
structure Message where
  role : String
  content : Option String := none
  tool_calls : List ToolCall := []
  tool_call_id : Option String := none
  name : Option String := none
deriving DecidableEq

/-- `orchestrator_settings.MAX_CONVERSATION_HISTORY` default
(`llm_orchestrator_worker/config.py` line 33). -/
def MAX_CONVERSATION_HISTORY : Nat := 10

/-- The system prompt appended to an empty history
(`llm_orchestrator_worker/main.py` line 82). -/
def systemMessage : Message :=
  { role := "system"
    content := some ("You are a helpful French voice assistant, your name is TARA. " ++
      "Make sure to NEVER generate MARKDOWN or HTML code in your responses.") }

/-- Embedding of the history-trimming statement
(`llm_orchestrator_worker/main.py` lines 85-86):
`if len(history) > MAX * 2: history = [history[0]] + history[-(MAX * 2 - 1):]`.
`history[-(19):]` is the suffix of length 19, i.e. `drop (len - 19)`. -/
def trimHistory (history : List Message) : List Message :=
  if MAX_CONVERSATION_HISTORY * 2 < history.length then
    match history with
    | [] => []
    | first :: _ =>
      first :: history.drop (history.length - (MAX_CONVERSATION_HISTORY * 2 - 1))
  else history

/-- Per-conversation cancellation bookkeeping of `LLMService`
(`llm_orchestrator_worker/llm_service.py`): whether
`_cancellation_events` holds an `asyncio.Event` for this conversation id,
whether that event is set, plus the number of
`generate_response_stream` calls currently streaming for this id
(the source puts no bound on this: `subscribe_to_transcripts` spawns one
`process_llm_interaction` task per final transcript). -/
structure CancelState where
  eventPresent : Bool
  eventIsSet : Bool
  streaming : Nat
deriving DecidableEq

/-- No event registered, nothing streaming. -/
def initCancelState : CancelState :=
  { eventPresent := false, eventIsSet := false, streaming := 0 }

/-- `LLMService._get_cancellation_event` (llm_service.py lines 64-67):
create an (unset) event if absent, else return the existing one. -/
def getOrCreateEvent (s : CancelState) : CancelState :=
  if s.eventPresent then s
  else { s with eventPresent := true, eventIsSet := false }

/-- `LLMService.cancel_generation` (llm_service.py lines 69-75): set the
event if one is registered, otherwise do nothing.  Called only from
`subscribe_to_barge_in_notifications` on a `barge_in_detected` message. -/
def cancel_generation (s : CancelState) : CancelState :=
  if s.eventPresent then { s with eventIsSet := true } else s

/-- The cancellation-relevant effect of one `process_llm_interaction` task
reaching its LLM call, as spawned by `subscribe_to_transcripts` for a final
transcript (`main.py` lines 74-79 and `llm_service.py` lines 220-221):
fetch-or-create the event; if it is already set, return without starting a
generation; otherwise `generate_response_stream` clears the event and the
stream begins (`streaming` grows by one). -/
def startInteraction (s : CancelState) : CancelState :=
  let s := getOrCreateEvent s
  if s.eventIsSet then s
  else { s with eventIsSet := false, streaming := s.streaming + 1 }

/-- One in-flight stream observing a chunk (`llm_service.py` lines
244-250 and the `finally` at 347-351): if the event is set the loop breaks
and the stream's `finally` deletes the event from the dictionary;
otherwise the stream continues unchanged. -/
def observeChunk (s : CancelState) : CancelState :=
  if 0 < s.streaming ∧ s.eventIsSet then
    { eventPresent := false, eventIsSet := false, streaming := s.streaming - 1 }
  else s

/-- Parts yielded by `LLMService.generate_response_stream`: token deltas
(strings) or assembled tool-call dicts. -/
inductive StreamPart where
  | token (s : String)
  | toolCall (tc : ToolCall)
deriving DecidableEq

/-- The collected `active_tool_calls` of a stream: the tool-call parts in
order. -/
def toolCallsOf (parts : List StreamPart) : List ToolCall :=
  parts.filterMap fun p =>
    match p with
    | .toolCall tc => some tc
    | .token _ => none

/-- Everything the orchestrator publishes or persists while processing one
transcript, in order: token messages on `llm.tokens`, TTS requests on
`tts.request`, tool-status messages on `tool.events`, and the final history
write to the keystore. -/
inductive OrchOut where
  | tokenMsg (content : String)
  | ttsRequest (text : String)
  | toolRunning (toolName : String)
  | toolStatus (toolName : String) (completed : Bool)
  | saveHistory (h : List Message)
deriving DecidableEq

/-- Remove the first occurrence of `pat` from `s`
(Python `s.replace(pat, "", 1)`; for the sentence strings produced by the
tokenizer, which are non-empty, this agrees with the source). -/
def removeFirstOccurrence (s pat : String) : String :=
  match s.splitOn pat with
  | [] => s
  | x :: rest => x ++ String.intercalate pat rest

/-- `_send_sentence_to_tts` (`main.py` lines 92-100): publish the stripped
sentence as a TTS request when it is non-blank. -/
def sendSentenceToTts (sentence : String) : List OrchOut :=
  if sentence ≠ "" ∧ sentence.trim ≠ "" then [OrchOut.ttsRequest sentence.trim]
  else []

/-- The `for i, sentence in enumerate(sentences)` body of the sentence
segmenter (`main.py` lines 149-160), threading the mutated
`sentence_buffer`: every sentence but the last is sent and removed from
the buffer; the last is sent only if the whole remaining buffer is that
sentence and ends in sentence punctuation, otherwise it is kept as the new
buffer. -/
def sentenceFold (buffer : String) : List String → String × List OrchOut
  | [] => (buffer, [])
  | [sentence] =>
    if buffer.trim = sentence.trim
        ∧ (buffer.endsWith "." ∨ buffer.endsWith "!" ∨ buffer.endsWith "?") then
      ("", sendSentenceToTts sentence)
    else (sentence, [])
  | sentence :: rest =>
    let outs := sendSentenceToTts sentence
    let buffer := (removeFirstOccurrence buffer sentence).trimLeft
    let r := sentenceFold buffer rest
    (r.1, outs ++ r.2)

/-- Feeding one token delta to the segmenter (`main.py` lines 145-160):
append to the buffer, tokenize (black-box `nltk.tokenize.sent_tokenize`
passed as `sentTok`), and run the sentence loop. -/
def feedToken (sentTok : String → List String) (buffer tok : String) :
    String × List OrchOut :=
  let buffer := buffer ++ tok
  sentenceFold buffer (sentTok buffer)

/-- Accumulator for one `async for response_part in generate_response_stream`
pass (`main.py` lines 134-188). -/
structure IterAcc where
  content : String
  buffer : String
  toolCalls : List ToolCall
  outs : List OrchOut
deriving DecidableEq

/-- One stream part (`main.py` lines 141-188): a token is accumulated into
`assistant_response_content`, fed to the segmenter (whose TTS requests are
published first) and then published as a token message; a tool call first
flushes a non-blank sentence buffer to TTS, is collected, and a
`running` tool-status message is published. -/
def consumePart (sentTok : String → List String) (acc : IterAcc) :
    StreamPart → IterAcc
  | .token t =>
    let content := acc.content ++ t
    let fb := feedToken sentTok acc.buffer t
    { acc with content := content, buffer := fb.1
               outs := acc.outs ++ fb.2 ++ [OrchOut.tokenMsg t] }
  | .toolCall tc =>
    let fl :=
      if acc.buffer.trim ≠ "" then ("", sendSentenceToTts acc.buffer)
      else (acc.buffer, ([] : List OrchOut))
    { acc with buffer := fl.1
               toolCalls := acc.toolCalls ++ [tc]
               outs := acc.outs ++ fl.2 ++ [OrchOut.toolRunning tc.name] }

/-- Consume one whole LLM stream, then flush a residual non-blank buffer to
TTS when no tool calls were made (`main.py` lines 191-193). -/
def consumeStream (sentTok : String → List String) (parts : List StreamPart) :
    IterAcc :=
  let acc := parts.foldl (consumePart sentTok)
    { content := "", buffer := "", toolCalls := [], outs := [] }
  if acc.buffer.trim ≠ "" ∧ acc.toolCalls = [] then
    { acc with buffer := "", outs := acc.outs ++ sendSentenceToTts acc.buffer }
  else acc

/-- The tool-execution pass over `active_tool_calls` (`main.py` lines
215-234): the black-box `ToolRouter.dispatch_tool_call` is `dispatch`,
returning the tool-result message; `contentHasError` models
`"error" in json.loads(result["content"])`, which decides the published
status (`completed` / `failed`).  Returns the tool-result messages (which
the source then appends to history) and the status publications. -/
def runToolCalls (dispatch : ToolCall → Message) (contentHasError : String → Bool)
    (calls : List ToolCall) : List Message × List OrchOut :=
  calls.foldl
    (fun acc tc =>
      let result := dispatch tc
      let ok := !contentHasError (result.content.getD "")
      (acc.1 ++ [result], acc.2 ++ [OrchOut.toolStatus tc.name ok]))
    ([], [])

/-- The LLM error sentence sent to TTS when the tool-recursion cap is
reached (`main.py` line 238). -/
def toolLimitSentence : String := "[Tool processing limit reached]"

/-- The `while current_tool_recursion < max_tool_recursion` loop of
`process_llm_interaction` (`main.py` lines 122-244), with
`max_tool_recursion = 5`.  `fuel = max_tool_recursion - current`, so the
guard `current < max` is `fuel > 0` and the post-increment breach check
`current + 1 >= max` is `fuel - 1 = 0`.  `gen i` is the black-box LLM
stream for the i-th loop pass.  Returns the publications in order, the
final history, and the final value of `current_tool_recursion`. -/
def toolLoopAux (sentTok : String → List String) (gen : Nat → List StreamPart)
    (dispatch : ToolCall → Message) (contentHasError : String → Bool) :
    Nat → Nat → List Message → List OrchOut × List Message × Nat
  | 0, current, history => ([], history, current)
  | fuel + 1, current, history =>
    let acc := consumeStream sentTok (gen current)
    let history :=
      if acc.content.trim ≠ "" ∨ acc.toolCalls ≠ [] then
        history ++ [{ role := "assistant"
                      content := if acc.content.trim ≠ "" then some acc.content.trim else none
                      tool_calls := acc.toolCalls }]
      else history
    if acc.toolCalls = [] then (acc.outs, history, current)
    else
      let rs := runToolCalls dispatch contentHasError acc.toolCalls
      let history := history ++ rs.1
      let current := current + 1
      if fuel = 0 then
        (acc.outs ++ rs.2 ++ [OrchOut.ttsRequest toolLimitSentence], history, current)
      else
        let r := toolLoopAux sentTok gen dispatch contentHasError fuel current history
        (acc.outs ++ rs.2 ++ r.1, r.2.1, r.2.2)

/-- `max_tool_recursion` (`main.py` line 88). -/
def max_tool_recursion : Nat := 5

/-- Embedding of `process_llm_interaction` (`main.py` lines 54-257) for one
final transcript: seed an empty history with the system prompt, append the
user message, trim, run the tool loop, and persist the resulting history
(the trailing `save_conversation_history`). -/
def process_llm_interaction (sentTok : String → List String)
    (gen : Nat → List StreamPart) (dispatch : ToolCall → Message)
    (contentHasError : String → Bool) (userText : String)
    (history0 : List Message) : List OrchOut × List Message :=
  let history := if history0 = [] then [systemMessage] else history0
  let history := history ++ [{ role := "user", content := some userText }]
  let history := trimHistory history
  let r := toolLoopAux sentTok gen dispatch contentHasError max_tool_recursion 0 history
  (r.1 ++ [OrchOut.saveHistory r.2.1], r.2.1)

/-- The final value of `current_tool_recursion` inside
`process_llm_interaction` (the loop counter that the source increments once
per executed tool batch), for the same inputs. -/
def interactionIterations (sentTok : String → List String)
    (gen : Nat → List StreamPart) (dispatch : ToolCall → Message)
    (contentHasError : String → Bool) (userText : String)
    (history0 : List Message) : Nat :=
  let history := if history0 = [] then [systemMessage] else history0
  let history := history ++ [{ role := "user", content := some userText }]
  let history := trimHistory history
  (toolLoopAux sentTok gen dispatch contentHasError max_tool_recursion 0 history).2.2

end Orch

namespace Tts

/-- One audio payload published on `audio_output_stream:{conversation_id}`. -/
abbrev Chunk := List Nat

/-- One step of the black-box `synthesizer.synthesize_stream` async
generator: it yields an audio byte chunk, or raises (terminating the
stream with an exception). -/
inductive SynthYield where
  | chunk (c : Chunk)
  | raised (msg : String)
deriving DecidableEq

/-- Whether a synthesizer step raises. -/
def isRaised : SynthYield → Bool
  | .raised _ => true
  | .chunk _ => false

/-- Messages published on the conversation's audio output channel
(`tts_worker/main.py`, `_execute_single_tts_item`).  The format-metadata
fields of `audio_stream_start` are configuration constants irrelevant to
the claims; `text_synthesized` is kept. -/
inductive OutMsg where
  | audio_stream_start (conversation_id : String) (text_synthesized : String)
  | audioChunk (c : Chunk)
  | audio_stream_end (conversation_id : String) (chunk_count : Nat)
  | audio_stream_error (conversation_id : String) (error : String)
deriving DecidableEq

/-- Whether the per-item `stop_event` is set when the chunk loop polls it
for the `idx`-th time.  `stopAt = some k` means the event becomes set (by
processor cancellation) at poll index `k` and stays set; `none` means it is
never set. -/
def stopSet (stopAt : Option Nat) (idx : Nat) : Bool :=
  match stopAt with
  | some k => decide (k ≤ idx)
  | none => false

/-- The `async for audio_chunk in synthesizer.synthesize_stream(...)` loop
of `_execute_single_tts_item` (`tts_worker/main.py` lines 113-134) plus its
surrounding `except` handlers (lines 136-145): each pulled chunk is
dropped (and the loop broken, suppressing the end message) when the stop
event is set; empty chunks are not published and not counted; a
synthesizer exception surfaces while pulling and is published as
`audio_stream_error`; when the stream is exhausted, `audio_stream_end`
with the chunk count is published unless the stop event is set. -/
def runItemLoop (cid : String) (stopAt : Option Nat) :
    List SynthYield → Nat → Nat → List OutMsg
  | [], idx, count =>
    if stopSet stopAt idx then [] else [OutMsg.audio_stream_end cid count]
  | .raised e :: _, _, _ => [OutMsg.audio_stream_error cid e]
  | .chunk c :: rest, idx, count =>
    if stopSet stopAt idx then []
    else if c = [] then runItemLoop cid stopAt rest (idx + 1) count
    else OutMsg.audioChunk c :: runItemLoop cid stopAt rest (idx + 1) (count + 1)

/-- Embedding of `_execute_single_tts_item` (`tts_worker/main.py` lines
64-145): publish the `audio_stream_start` envelope, then run the chunk
loop.  Redis publishes are modelled as reliable (the source's
publish-failure branches only log, or set the stop flag). -/
def _execute_single_tts_item (cid text : String) (yields : List SynthYield)
    (stopAt : Option Nat) : List OutMsg :=
  OutMsg.audio_stream_start cid text :: runItemLoop cid stopAt yields 0 0

/-- One queued TTS request together with the black-box behaviour of its
synthesis: the yields of `synthesize_stream` and the stop schedule
(`stopAt.isSome` exactly when the processor is cancelled during this
item). -/
structure QueueItem where
  text_to_speak : String
  yields : List SynthYield
  stopAt : Option Nat
deriving DecidableEq

/-- Keystore and publication effects of the per-conversation processor, in
order.  `setTtsActive true` is `SET tts_active_state:{cid} "1" EX 60`;
`setTtsActive false` is `DELETE tts_active_state:{cid}`
(`set_tts_active_state_for_conversation`, `tts_worker/main.py` lines
52-62). -/
inductive TtsAction where
  | publish (m : OutMsg)
  | setTtsActive (value : Bool)
deriving DecidableEq

/-- Embedding of `_process_conversation_tts_queue` (`tts_worker/main.py`
lines 148-221) on the sequence of items the processor dequeues.  `active`
is `is_active_for_redis`.  The TTS-active flag is set when the first item
is dequeued while inactive; each item is executed to completion before the
next is dequeued; an item whose stop event was set means the processor
task was cancelled — the `CancelledError` handler drains the rest of the
queue and the `finally` clears the flag; when the queue stays empty for
the idle timeout (the list is exhausted), the `finally` likewise clears
the flag. -/
def _process_conversation_tts_queue (cid : String) :
    Bool → List QueueItem → List TtsAction
  | active, [] => if active then [TtsAction.setTtsActive false] else []
  | active, it :: rest =>
    (if !active then [TtsAction.setTtsActive true] else [])
      ++ (_execute_single_tts_item cid it.text_to_speak it.yields it.stopAt).map
           TtsAction.publish
      ++ (if it.stopAt.isSome then [TtsAction.setTtsActive false]
          else _process_conversation_tts_queue cid true rest)

/-- Embedding of the queueing part of `process_tts_request`
(`tts_worker/main.py` lines 224-256): `asyncio.Queue` is FIFO, so a new
request is appended at the tail of the conversation's queue. -/
def process_tts_request (queue : List QueueItem) (item : QueueItem) :
    List QueueItem :=
  queue ++ [item]

/-- The audio chunks among the published messages, in order. -/
def audioChunksOfMsgs (ms : List OutMsg) : List Chunk :=
  ms.filterMap fun m =>
    match m with
    | .audioChunk c => some c
    | _ => none

/-- The audio chunks among the processor's actions, in order. -/
def audioChunks (acts : List TtsAction) : List Chunk :=
  acts.filterMap fun a =>
    match a with
    | .publish (.audioChunk c) => some c
    | _ => none

/-- The chunks a lone item publishes when its stop event is never set: the
non-empty chunks yielded before any synthesizer exception. -/
def publishedChunks : List SynthYield → List Chunk
  | [] => []
  | .raised _ :: _ => []
  | .chunk c :: rest =>
    if c = [] then publishedChunks rest else c :: publishedChunks rest

/-- Stream terminators: `audio_stream_end` or `audio_stream_error`. -/
def isTerminator : OutMsg → Bool
  | .audio_stream_end _ _ => true
  | .audio_stream_error _ _ => true
  | _ => false

/-- Whether an action is the keystore write `setTtsActive b`. -/
def isSetFlag (b : Bool) : TtsAction → Bool
  | .setTtsActive v => v == b
  | _ => false

/-- Whether an action publishes a stream terminator. -/
def isTerminatorAct : TtsAction → Bool
  | .publish m => isTerminator m
  | _ => false

end Tts

namespace Api

/-- The request body of `POST /conversations/{id}/config`
(`app/schemas/conversation_config.py`, `ConversationConfigUpdate`): every
field optional; `none` covers both an absent field and an explicit `null`
(both are skipped by the merge, which tests `value is not None` on
`model_dump(exclude_unset=True)`). -/
structure ConversationConfigUpdate where
  llm_model_name : Option String := none
  llm_temperature : Option ℚ := none
  llm_max_tokens : Option Int := none
  tts_voice_id : Option String := none
  vad_aggressiveness : Option Int := none
deriving DecidableEq

/-- The JSON object stored under `conversation_config:{id}`: a partial map
over the five known fields (`.get(key)` on a plain dict). -/
structure StoredConfig where
  llm_model_name : Option String := none
  llm_temperature : Option ℚ := none
  llm_max_tokens : Option Int := none
  tts_voice_id : Option String := none
  vad_aggressiveness : Option Int := none
deriving DecidableEq

/-- `json.loads("{}")`: no fields present. -/
def emptyConfig : StoredConfig := {}

/-- The response model (`ConversationConfigResponse`): conversation id plus
the five override fields, each possibly `null`. -/
structure ConversationConfigResponse where
  conversation_id : String
  llm_model_name : Option String := none
  llm_temperature : Option ℚ := none
  llm_max_tokens : Option Int := none
  tts_voice_id : Option String := none
  vad_aggressiveness : Option Int := none
deriving DecidableEq

/-- The merge loop of the POST handler
(`app/api/v1/endpoints/conversations.py` lines 40-42):
`for key, value in update_data.items(): if value is not None:
current_config[key] = value`. -/
def mergeConfig (cur : StoredConfig) (upd : ConversationConfigUpdate) :
    StoredConfig :=
  { llm_model_name := match upd.llm_model_name with
      | some v => some v
      | none => cur.llm_model_name
    llm_temperature := match upd.llm_temperature with
      | some v => some v
      | none => cur.llm_temperature
    llm_max_tokens := match upd.llm_max_tokens with
      | some v => some v
      | none => cur.llm_max_tokens
    tts_voice_id := match upd.tts_voice_id with
      | some v => some v
      | none => cur.tts_voice_id
    vad_aggressiveness := match upd.vad_aggressiveness with
      | some v => some v
      | none => cur.vad_aggressiveness }

/-- View a stored config as the response payload the handlers build with
`current_config.get(...)` for each field. -/
def responseOf (cid : String) (c : StoredConfig) : ConversationConfigResponse :=
  { conversation_id := cid
    llm_model_name := c.llm_model_name
    llm_temperature := c.llm_temperature
    llm_max_tokens := c.llm_max_tokens
    tts_voice_id := c.tts_voice_id
    vad_aggressiveness := c.vad_aggressiveness }

/-- Embedding of `update_conversation_configuration`
(`conversations.py` lines 21-58): read the stored JSON (missing key gives
`{}`), merge the non-null request fields, write the merged object back,
and return the full merged view with HTTP 200. -/
def update_conversation_configuration (cid : String)
    (store : Option StoredConfig) (upd : ConversationConfigUpdate) :
    Option StoredConfig × ConversationConfigResponse :=
  let current := match store with
    | some c => c
    | none => emptyConfig
  let merged := mergeConfig current upd
  (some merged, responseOf cid merged)

/-- Embedding of `get_conversation_configuration`
(`conversations.py` lines 65-99): a missing key returns the defaults
envelope (all override fields `null`) rather than a 404; a stored config
is returned field by field. -/
def get_conversation_configuration (cid : String)
    (store : Option StoredConfig) : ConversationConfigResponse :=
  match store with
  | none => { conversation_id := cid }
  | some c => responseOf cid c

end Api

/-! ## Theorems -/

theorem toInt16_bounds (lo hi : Nat) :
    -32768 ≤ Vad.toInt16 lo hi ∧ Vad.toInt16 lo hi ≤ 32767 := by
  have h1 : ((lo % 256) + 256 * (hi % 256)) % 65536 < 65536 :=
    Nat.mod_lt _ (by norm_num)
  by_cases h : ((lo % 256) + 256 * (hi % 256)) % 65536 < 32768 <;>
    simp [Vad.toInt16, h] <;> omega

theorem decodePairs_mem_bounds :
    ∀ (l : List Nat), ∀ v ∈ Vad.decodePairs l, -32768 ≤ v ∧ v ≤ 32767
  | [], v, h => by simp [Vad.decodePairs] at h
  | [_], v, h => by simp [Vad.decodePairs] at h
  | lo :: hi :: rest, v, h => by
    simp only [Vad.decodePairs, List.mem_cons] at h
    rcases h with h | h
    · subst h; exact toInt16_bounds lo hi
    · exact decodePairs_mem_bounds rest v h

/-- C10 — for every byte string given to the PCM decoder, decoding is a
total function (the embedding is a Lean function; the source's conversion
catches all exceptions and returns an empty array): the empty input yields
an empty sample list, an odd-length input has its final byte dropped before
decoding, and every decoded sample, a little-endian int16 scaled by
`1 / 32768`, lies in the half-open interval `[-1, 1)`. -/
theorem c10_pcm_decode_total_and_bounded (pcm : List Nat) :
    Vad.convert_pcm_s16le_to_float32 [] = []
    ∧ (pcm.length % 2 = 1 →
        Vad.convert_pcm_s16le_to_float32 pcm
          = Vad.convert_pcm_s16le_to_float32 pcm.dropLast)
    ∧ ∀ q ∈ Vad.convert_pcm_s16le_to_float32 pcm, -1 ≤ q ∧ q < 1 := by
  refine ⟨rfl, ?_, ?_⟩
  · intro hodd
    have hne : pcm ≠ [] := by
      intro h; subst h; simp at hodd
    have hlen : 1 ≤ pcm.length := List.length_pos.mpr hne
    by_cases hdrop : pcm.dropLast = []
    · have hlen1 : pcm.length = 1 := by
        have hdl := List.length_dropLast pcm
        have h0 : pcm.dropLast.length = 0 := by simp [hdrop]
        omega
      rcases List.length_eq_one.mp hlen1 with ⟨a, rfl⟩
      simp [Vad.convert_pcm_s16le_to_float32, Vad.decodePairs]
    · have h3 : (pcm.length - 1) % 2 = 0 := by omega
      unfold Vad.convert_pcm_s16le_to_float32
      rw [if_neg hne, if_neg hdrop]
      simp [hodd, h3]
  · intro q hq
    have key : ∀ (l : List Nat) (q : ℚ),
        q ∈ (Vad.decodePairs l).map (fun v : Int => (v : ℚ) / 32768) → -1 ≤ q ∧ q < 1 := by
      intro l q hql
      obtain ⟨v, hv, hfq⟩ := List.mem_map.mp hql
      subst hfq
      have hb := decodePairs_mem_bounds l v hv
      have h32 : (0 : ℚ) < 32768 := by norm_num
      refine ⟨?_, ?_⟩
      · rw [le_div_iff₀ h32]
        have hcast : (-32768 : ℚ) ≤ (v : ℚ) := by exact_mod_cast hb.1
        linarith
      · rw [div_lt_one h32]
        have hcast : (v : ℚ) ≤ 32767 := by exact_mod_cast hb.2
        linarith
    by_cases h : pcm = []
    · subst h; simp [Vad.convert_pcm_s16le_to_float32] at hq
    · have hconv : Vad.convert_pcm_s16le_to_float32 pcm
          = (Vad.decodePairs (if pcm.length % 2 ≠ 0 then pcm.dropLast else pcm)).map
              (fun v : Int => (v : ℚ) / 32768) := by
        unfold Vad.convert_pcm_s16le_to_float32
        rw [if_neg h]
      rw [hconv] at hq
      exact key _ q hq

/-- Witness for C10 at the concrete odd-length input `[0, 128, 255]`: the
final byte `255` is dropped, the remaining pair decodes to `-32768`, and
the scaled sample is `-1`, the lower edge of `[-1, 1)`. -/
theorem c10_witness :
    ([0, 128, 255] : List Nat).length % 2 = 1
    ∧ Vad.convert_pcm_s16le_to_float32 [0, 128, 255]
        = Vad.convert_pcm_s16le_to_float32 (([0, 128, 255] : List Nat).dropLast)
    ∧ (-1 : ℚ) ∈ Vad.convert_pcm_s16le_to_float32 [0, 128, 255]
    ∧ (-1 ≤ (-1 : ℚ) ∧ (-1 : ℚ) < 1) := by
  have hmem : (-1 : ℚ) ∈ Vad.convert_pcm_s16le_to_float32 [0, 128, 255] := by
    have h : Vad.convert_pcm_s16le_to_float32 [0, 128, 255] = [-1] := by
      norm_num [Vad.convert_pcm_s16le_to_float32, Vad.decodePairs, Vad.toInt16,
        List.cons_ne_nil]
    rw [h]
    exact List.mem_singleton.mpr rfl
  exact ⟨by decide, (c10_pcm_decode_total_and_bounded [0, 128, 255]).2.1 (by decide),
    hmem, (c10_pcm_decode_total_and_bounded [0, 128, 255]).2.2 (-1) hmem⟩

/-- C8 — POSTing a conversation config and then GETting it returns the same
merged view: the POST merges exactly the fields present and non-null in the
request into the stored config and returns the full merged config; for any
field sent as `null` (or absent), the POST response carries the previously
stored value for that field (i.e. what a GET before the POST returned); and
a GET for an id with no stored config returns the defaults envelope (all
override fields `null`) rather than a 404. -/
theorem c8_config_post_get_roundtrip (cid : String) (store : Option Api.StoredConfig)
    (upd : Api.ConversationConfigUpdate) :
    (Api.get_conversation_configuration cid
        (Api.update_conversation_configuration cid store upd).1
      = (Api.update_conversation_configuration cid store upd).2)
    ∧ (upd.llm_model_name = none →
        ((Api.update_conversation_configuration cid store upd).2).llm_model_name
          = (Api.get_conversation_configuration cid store).llm_model_name)
    ∧ (upd.llm_temperature = none →
        ((Api.update_conversation_configuration cid store upd).2).llm_temperature
          = (Api.get_conversation_configuration cid store).llm_temperature)
    ∧ (upd.llm_max_tokens = none →
        ((Api.update_conversation_configuration cid store upd).2).llm_max_tokens
          = (Api.get_conversation_configuration cid store).llm_max_tokens)
    ∧ (upd.tts_voice_id = none →
        ((Api.update_conversation_configuration cid store upd).2).tts_voice_id
          = (Api.get_conversation_configuration cid store).tts_voice_id)
    ∧ (upd.vad_aggressiveness = none →
        ((Api.update_conversation_configuration cid store upd).2).vad_aggressiveness
          = (Api.get_conversation_configuration cid store).vad_aggressiveness)
    ∧ Api.get_conversation_configuration cid none
        = { conversation_id := cid } := by
  refine ⟨?_, ?_, ?_, ?_, ?_, ?_, rfl⟩
  · cases store <;> rfl
  all_goals
    intro h
    cases store <;>
      simp [Api.update_conversation_configuration, Api.get_conversation_configuration,
        Api.mergeConfig, Api.responseOf, Api.emptyConfig, h]

/-- Witness for C8: a stored config with a model-name override, updated by
a request that sets the temperature and sends every other field as null;
the POST response keeps the stored model name, and GET after POST equals
the POST response. -/
theorem c8_witness :
    (({ llm_temperature := some 1 } : Api.ConversationConfigUpdate).llm_model_name = none)
    ∧ (Api.get_conversation_configuration "conv1"
        (Api.update_conversation_configuration "conv1"
          (some { llm_model_name := some "gemma3" }) { llm_temperature := some 1 }).1
      = (Api.update_conversation_configuration "conv1"
          (some { llm_model_name := some "gemma3" }) { llm_temperature := some 1 }).2)
    ∧ ((Api.update_conversation_configuration "conv1"
          (some { llm_model_name := some "gemma3" }) { llm_temperature := some 1 }).2).llm_model_name
      = (Api.get_conversation_configuration "conv1"
          (some { llm_model_name := some "gemma3" })).llm_model_name := by
  refine ⟨rfl, ?_, ?_⟩
  · exact (c8_config_post_get_roundtrip "conv1"
      (some { llm_model_name := some "gemma3" }) { llm_temperature := some 1 }).1
  · exact (c8_config_post_get_roundtrip "conv1"
      (some { llm_model_name := some "gemma3" }) { llm_temperature := some 1 }).2.1 rfl

/-- C1 — evaluation of the code at the failing input.  The claim (and the
spec rule it quotes) requires a `barge_in` event to be published only if
speech begins while the conversation's TTS-active flag is set in the
keystore.  In the source, the check is commented out:
`vad_stt_worker/main.py` line 271 reads
`tts_is_currently_active = True #await check_tts_active(conversation_id, redis_client)`,
so the worker publishes `barge_in_detected` on speech start even when the
`tts_active_state:{id}` key is absent.  Concretely: with the keystore flag
clear (`check_tts_active` would return `false`) and the per-conversation
latch unset, a single `proper_speech_start` VAD event makes the worker
publish a barge-in event — the claim says it must publish none. -/
theorem c1_barge_in_published_without_tts_active :
    Vad.check_tts_active false = false
    ∧ Vad.handleProcessorEvents false false [Vad.APEvent.vad_event "proper_speech_start"]
        = (true, [Vad.WorkerPub.barge_in_detected]) := by
  constructor
  · rfl
  · decide

/-- C2 counterexample — the claim says that when a new final transcript for
a conversation arrives while a prior generation is still streaming, the
prior generation's cancellation flag is set before (or as) the new
generation starts, so the prior token loop terminates.  On the embedded
code, starting from no registered event, a first final transcript starts
generation one (`streaming = 1`, flag clear); a second final transcript
arriving while it streams starts generation two without setting the
flag — `generate_response_stream` even clears the shared event.  The
result is two generations in flight and an unset cancellation flag, so the
prior token loop does not terminate: the claimed behaviour is false on
this concrete trace. -/
theorem c2_counterexample_two_streams_no_cancel :
    (Orch.startInteraction (Orch.startInteraction Orch.initCancelState)).streaming = 2
    ∧ (Orch.startInteraction (Orch.startInteraction Orch.initCancelState)).eventIsSet
        = false := by
  decide

/-- C2 (amended) — receiving a new final transcript does not cancel a prior
in-flight generation.  The orchestrator's transcript subscriber spawns a
new `process_llm_interaction` without calling `cancel_generation`; the new
task aborts itself if the shared per-conversation event is already set,
and otherwise starts a new generation, clearing (not setting) the shared
flag and leaving the prior stream running, so two generations for the same
conversation can be in flight concurrently.  The cancellation flag is set
only by `cancel_generation`, which the orchestrator invokes solely from
its barge-in subscriber, and which does nothing when no event is
registered. -/
theorem c2_new_transcript_never_sets_cancel_flag (s : Orch.CancelState) :
    ((Orch.getOrCreateEvent s).eventIsSet = false →
      (Orch.startInteraction s).eventIsSet = false
      ∧ (Orch.startInteraction s).streaming = s.streaming + 1)
    ∧ ((Orch.getOrCreateEvent s).eventIsSet = true →
      Orch.startInteraction s = Orch.getOrCreateEvent s)
    ∧ (s.eventPresent = true → (Orch.cancel_generation s).eventIsSet = true)
    ∧ (s.eventPresent = false → Orch.cancel_generation s = s) := by
  rcases s with ⟨p, e, n⟩
  cases p <;> cases e <;>
    simp [Orch.getOrCreateEvent, Orch.startInteraction, Orch.cancel_generation]

/-- Witness for C2 (amended) at the state with one registered, unset event
and one stream in flight — exactly the state after a first transcript: the
second transcript leaves the flag clear and brings two streams in flight,
while a barge-in would set the flag. -/
theorem c2_witness :
    ((Orch.getOrCreateEvent ⟨true, false, 1⟩).eventIsSet = false)
    ∧ (Orch.startInteraction ⟨true, false, 1⟩).eventIsSet = false
    ∧ (Orch.startInteraction ⟨true, false, 1⟩).streaming = 2
    ∧ (Orch.cancel_generation ⟨true, false, 1⟩).eventIsSet = true := by
  refine ⟨by decide, ?_, ?_, ?_⟩
  · exact ((c2_new_transcript_never_sets_cancel_flag ⟨true, false, 1⟩).1 (by decide)).1
  · exact ((c2_new_transcript_never_sets_cancel_flag ⟨true, false, 1⟩).1 (by decide)).2
  · exact (c2_new_transcript_never_sets_cancel_flag ⟨true, false, 1⟩).2.2.1 (by decide)

theorem runItemLoop_no_stop_no_raise (cid : String) (yields : List Tts.SynthYield) :
    ∀ (idx count : Nat), (∀ y ∈ yields, Tts.isRaised y = false) →
      Tts.runItemLoop cid none yields idx count
        = (Tts.publishedChunks yields).map Tts.OutMsg.audioChunk
          ++ [Tts.OutMsg.audio_stream_end cid
                (count + (Tts.publishedChunks yields).length)] := by
  induction yields with
  | nil =>
    intro idx count h
    simp [Tts.runItemLoop, Tts.stopSet, Tts.publishedChunks]
  | cons y rest ih =>
    intro idx count h
    cases y with
    | raised e => simpa [Tts.isRaised] using h _ (List.mem_cons_self _ _)
    | chunk c =>
      have hrest : ∀ y ∈ rest, Tts.isRaised y = false :=
        fun y hy => h y (List.mem_cons_of_mem _ hy)
      by_cases hc : c = []
      · simp [Tts.runItemLoop, Tts.stopSet, hc, Tts.publishedChunks,
          ih (idx + 1) count hrest]
      · have harith : count + 1 + (Tts.publishedChunks rest).length
            = count + ((Tts.publishedChunks rest).length + 1) := by omega
        simp [Tts.runItemLoop, Tts.stopSet, hc, Tts.publishedChunks,
          ih (idx + 1) (count + 1) hrest, harith]

theorem runItemLoop_raise (cid : String) (pre : List Tts.SynthYield) :
    ∀ (rest : List Tts.SynthYield) (e : String) (idx count : Nat),
      (∀ y ∈ pre, Tts.isRaised y = false) →
      Tts.runItemLoop cid none (pre ++ Tts.SynthYield.raised e :: rest) idx count
        = (Tts.publishedChunks pre).map Tts.OutMsg.audioChunk
          ++ [Tts.OutMsg.audio_stream_error cid e] := by
  induction pre with
  | nil =>
    intro rest e idx count h
    simp [Tts.runItemLoop, Tts.publishedChunks]
  | cons y pre' ih =>
    intro rest e idx count h
    cases y with
    | raised msg => simpa [Tts.isRaised] using h _ (List.mem_cons_self _ _)
    | chunk c =>
      have hpre : ∀ y ∈ pre', Tts.isRaised y = false :=
        fun y hy => h y (List.mem_cons_of_mem _ hy)
      by_cases hc : c = [] <;>
        simp [Tts.runItemLoop, Tts.stopSet, hc, Tts.publishedChunks, ih rest e _ _ hpre]

theorem runItemLoop_stopped (cid : String) (yields : List Tts.SynthYield) :
    ∀ (k idx count : Nat), idx ≤ k → k ≤ idx + yields.length →
      (∀ y ∈ yields.take (k - idx + 1), Tts.isRaised y = false) →
      (Tts.runItemLoop cid (some k) yields idx count).countP Tts.isTerminator = 0 := by
  induction yields with
  | nil =>
    intro k idx count hik hlen h
    have hk : k ≤ idx := by simpa using hlen
    simp [Tts.runItemLoop, Tts.stopSet, hk]
  | cons y rest ih =>
    intro k idx count hik hlen h
    cases y with
    | raised e =>
      have hmem : Tts.SynthYield.raised e ∈ (Tts.SynthYield.raised e :: rest).take (k - idx + 1) := by
        have : 0 < k - idx + 1 := by omega
        simp [List.take_cons, this]
      simpa [Tts.isRaised] using h _ hmem
    | chunk c =>
      by_cases hk : k ≤ idx
      · simp [Tts.runItemLoop, Tts.stopSet, hk]
      · have hik' : idx + 1 ≤ k := by omega
        have hlen' : k ≤ idx + 1 + rest.length := by
          simp at hlen; omega
        have hrest : ∀ y ∈ rest.take (k - (idx + 1) + 1), Tts.isRaised y = false := by
          intro y hy
          refine h y ?_
          have hsub : k - (idx + 1) + 1 = k - idx - 1 + 1 := by omega
          have hpos : k - idx = (k - idx - 1) + 1 := by omega
          rw [hpos]
          rw [hsub] at hy
          exact List.mem_cons_of_mem _ (by simpa using hy)
        have hstop : Tts.stopSet (some k) idx = false := by
          simp [Tts.stopSet]; omega
        by_cases hc : c = []
        · simp [Tts.runItemLoop, hstop, hc, ih k (idx + 1) count hik' hlen' hrest]
        · simp [Tts.runItemLoop, hstop, hc, List.countP_cons, Tts.isTerminator,
            ih k (idx + 1) (count + 1) hik' hlen' hrest]

/-- C4 counterexample — the claim says every `audio_stream_start` gets
exactly one matching terminator (`audio_stream_end` or
`audio_stream_error`) before the next `audio_stream_start`, including when
the item is stopped mid-stream by cancellation.  On the embedded code, an
item whose stop event is set after its first chunk publishes the start
envelope and one chunk and then nothing: the end message is explicitly
suppressed when the stop flag is set (`tts_worker/main.py` line 134), and
task cancellation is not an `Exception`, so the error branch does not fire
either — zero terminators, not one. -/
theorem c4_counterexample_stopped_item_without_terminator :
    (Tts._execute_single_tts_item "conv1" "Hello."
        [Tts.SynthYield.chunk [1, 2], Tts.SynthYield.chunk [3, 4]] (some 1)).countP
        Tts.isTerminator = 0
    ∧ Tts._execute_single_tts_item "conv1" "Hello."
        [Tts.SynthYield.chunk [1, 2], Tts.SynthYield.chunk [3, 4]] (some 1)
      = [Tts.OutMsg.audio_stream_start "conv1" "Hello.",
         Tts.OutMsg.audioChunk [1, 2]] := by
  decide

/-- C4 (amended) — for every `audio_stream_start` the TTS worker publishes:
when the item's synthesis stream completes with the stop event never set,
exactly one terminator follows — `audio_stream_end` carrying the count of
published (non-empty) chunks; when the synthesizer raises, exactly one
terminator follows — `audio_stream_error` carrying the message; but when
the item is stopped mid-stream by the stop event (cancellation), no
terminator is published at all for that start. -/
theorem c4_stream_terminator_protocol (cid text : String)
    (yields : List Tts.SynthYield) :
    ((∀ y ∈ yields, Tts.isRaised y = false) →
      Tts._execute_single_tts_item cid text yields none
        = Tts.OutMsg.audio_stream_start cid text
            :: (Tts.publishedChunks yields).map Tts.OutMsg.audioChunk
            ++ [Tts.OutMsg.audio_stream_end cid (Tts.publishedChunks yields).length])
    ∧ (∀ (pre rest : List Tts.SynthYield) (e : String),
        (∀ y ∈ pre, Tts.isRaised y = false) →
        Tts._execute_single_tts_item cid text (pre ++ Tts.SynthYield.raised e :: rest) none
          = Tts.OutMsg.audio_stream_start cid text
              :: (Tts.publishedChunks pre).map Tts.OutMsg.audioChunk
              ++ [Tts.OutMsg.audio_stream_error cid e])
    ∧ (∀ k, k ≤ yields.length →
        (∀ y ∈ yields.take (k + 1), Tts.isRaised y = false) →
        (Tts._execute_single_tts_item cid text yields (some k)).countP
          Tts.isTerminator = 0) := by
  refine ⟨?_, ?_, ?_⟩
  · intro h
    simp [Tts._execute_single_tts_item, runItemLoop_no_stop_no_raise cid yields 0 0 h]
  · intro pre rest e hpre
    simp [Tts._execute_single_tts_item, runItemLoop_raise cid pre rest e 0 0 hpre]
  · intro k hk h
    have := runItemLoop_stopped cid yields k 0 0 (Nat.zero_le k) (by omega)
      (by simpa using h)
    simp [Tts._execute_single_tts_item, List.countP_cons, Tts.isTerminator, this]

/-- Witness for C4 (amended): one item that completes with a single
non-empty chunk gets exactly `audio_stream_end` with count 1; one item
that raises immediately gets exactly `audio_stream_error`; one item
stopped at its first poll publishes no terminator. -/
theorem c4_witness :
    ((∀ y ∈ [Tts.SynthYield.chunk [7]], Tts.isRaised y = false)
      ∧ Tts._execute_single_tts_item "conv1" "Hi." [Tts.SynthYield.chunk [7]] none
        = [Tts.OutMsg.audio_stream_start "conv1" "Hi.", Tts.OutMsg.audioChunk [7],
           Tts.OutMsg.audio_stream_end "conv1" 1])
    ∧ Tts._execute_single_tts_item "conv1" "Hi."
        ([] ++ Tts.SynthYield.raised "boom" :: []) none
      = [Tts.OutMsg.audio_stream_start "conv1" "Hi.",
         Tts.OutMsg.audio_stream_error "conv1" "boom"]
    ∧ (Tts._execute_single_tts_item "conv1" "Hi." [Tts.SynthYield.chunk [7]]
        (some 0)).countP Tts.isTerminator = 0 := by
  refine ⟨⟨by decide, ?_⟩, ?_, ?_⟩
  · exact (c4_stream_terminator_protocol "conv1" "Hi." [Tts.SynthYield.chunk [7]]).1
      (by decide)
  · exact (c4_stream_terminator_protocol "conv1" "Hi." []).2.1 [] []
      "boom" (by decide)
  · exact (c4_stream_terminator_protocol "conv1" "Hi." [Tts.SynthYield.chunk [7]]).2.2 0
      (by decide) (by decide)

/-- C5 counterexample — the claim says the TTS-active flag is set when each
item's `audio_stream_start` is published and cleared when that item ends
via `audio_stream_end`, `audio_stream_error` or cancellation, i.e. the
set/clear transitions track item boundaries.  On the embedded code, a
processor run over two items that both complete normally performs exactly
one keystore set and one keystore clear, although two items start and two
items end with `audio_stream_end` — the claim would force two sets and two
clears, and in particular a clear between the first item's terminator and
the second item's start, which the trace does not contain. -/
theorem c5_counterexample_flag_not_per_item :
    (Tts._process_conversation_tts_queue "conv1" false
        [{ text_to_speak := "Hello.", yields := [Tts.SynthYield.chunk [1]], stopAt := none },
         { text_to_speak := "World.", yields := [Tts.SynthYield.chunk [2]], stopAt := none }]).countP
        (Tts.isSetFlag true) = 1
    ∧ (Tts._process_conversation_tts_queue "conv1" false
        [{ text_to_speak := "Hello.", yields := [Tts.SynthYield.chunk [1]], stopAt := none },
         { text_to_speak := "World.", yields := [Tts.SynthYield.chunk [2]], stopAt := none }]).countP
        (Tts.isSetFlag false) = 1
    ∧ (Tts._process_conversation_tts_queue "conv1" false
        [{ text_to_speak := "Hello.", yields := [Tts.SynthYield.chunk [1]], stopAt := none },
         { text_to_speak := "World.", yields := [Tts.SynthYield.chunk [2]], stopAt := none }]).countP
        Tts.isTerminatorAct = 2
    ∧ Tts._process_conversation_tts_queue "conv1" false
        [{ text_to_speak := "Hello.", yields := [Tts.SynthYield.chunk [1]], stopAt := none },
         { text_to_speak := "World.", yields := [Tts.SynthYield.chunk [2]], stopAt := none }]
      = [Tts.TtsAction.setTtsActive true,
         Tts.TtsAction.publish (Tts.OutMsg.audio_stream_start "conv1" "Hello."),
         Tts.TtsAction.publish (Tts.OutMsg.audioChunk [1]),
         Tts.TtsAction.publish (Tts.OutMsg.audio_stream_end "conv1" 1),
         Tts.TtsAction.publish (Tts.OutMsg.audio_stream_start "conv1" "World."),
         Tts.TtsAction.publish (Tts.OutMsg.audioChunk [2]),
         Tts.TtsAction.publish (Tts.OutMsg.audio_stream_end "conv1" 1),
         Tts.TtsAction.setTtsActive false] := by
  refine ⟨?_, ?_, ?_, ?_⟩ <;> decide

theorem queueRun_active_shape (cid : String) (items : List Tts.QueueItem) :
    ∃ mid, Tts._process_conversation_tts_queue cid true items
        = mid ++ [Tts.TtsAction.setTtsActive false]
      ∧ ∀ a ∈ mid, ∃ m, a = Tts.TtsAction.publish m := by
  induction items with
  | nil =>
    exact ⟨[], by simp [Tts._process_conversation_tts_queue], by simp⟩
  | cons it rest ih =>
    by_cases hstop : it.stopAt.isSome
    · refine ⟨(Tts._execute_single_tts_item cid it.text_to_speak it.yields it.stopAt).map
        Tts.TtsAction.publish, ?_, ?_⟩
      · simp [Tts._process_conversation_tts_queue, hstop]
      · intro a ha
        obtain ⟨m, _, rfl⟩ := List.mem_map.mp ha
        exact ⟨m, rfl⟩
    · obtain ⟨mid, heq, hmid⟩ := ih
      refine ⟨(Tts._execute_single_tts_item cid it.text_to_speak it.yields it.stopAt).map
        Tts.TtsAction.publish ++ mid, ?_, ?_⟩
      · simp [Tts._process_conversation_tts_queue, hstop, heq]
      · intro a ha
        rcases List.mem_append.mp ha with hx | hx
        · obtain ⟨m, _, rfl⟩ := List.mem_map.mp hx
          exact ⟨m, rfl⟩
        · exact hmid a hx

/-- C5 (amended) — for every non-empty sequence of items a conversation's
processor dequeues, the TTS-active flag tracks the processor's lifetime,
not item boundaries: it is set (with its short TTL) exactly once, when the
processor dequeues its first item — before that item's
`audio_stream_start` — and deleted exactly once, in the processor's
cleanup when it shuts down (queue idle timeout or cancellation); every
action between the single set and the single clear is a publication, so no
per-item clear or re-set occurs. -/
theorem c5_flag_tracks_processor_lifetime (cid : String)
    (items : List Tts.QueueItem) (hne : items ≠ []) :
    ∃ mid, Tts._process_conversation_tts_queue cid false items
        = Tts.TtsAction.setTtsActive true :: mid ++ [Tts.TtsAction.setTtsActive false]
      ∧ ∀ a ∈ mid, ∃ m, a = Tts.TtsAction.publish m := by
  cases items with
  | nil => exact absurd rfl hne
  | cons it rest =>
    by_cases hstop : it.stopAt.isSome
    · refine ⟨(Tts._execute_single_tts_item cid it.text_to_speak it.yields it.stopAt).map
        Tts.TtsAction.publish, ?_, ?_⟩
      · simp [Tts._process_conversation_tts_queue, hstop]
      · intro a ha
        obtain ⟨m, _, rfl⟩ := List.mem_map.mp ha
        exact ⟨m, rfl⟩
    · obtain ⟨mid, heq, hmid⟩ := queueRun_active_shape cid rest
      refine ⟨(Tts._execute_single_tts_item cid it.text_to_speak it.yields it.stopAt).map
        Tts.TtsAction.publish ++ mid, ?_, ?_⟩
      · simp [Tts._process_conversation_tts_queue, hstop, heq]
      · intro a ha
        rcases List.mem_append.mp ha with hx | hx
        · obtain ⟨m, _, rfl⟩ := List.mem_map.mp hx
          exact ⟨m, rfl⟩
        · exact hmid a hx

/-- Witness for C5 (amended) on a one-item queue. -/
theorem c5_witness :
    (([{ text_to_speak := "Hi.", yields := [Tts.SynthYield.chunk [7]], stopAt := none }]
        : List Tts.QueueItem) ≠ [])
    ∧ ∃ mid, Tts._process_conversation_tts_queue "conv1" false
          [{ text_to_speak := "Hi.", yields := [Tts.SynthYield.chunk [7]], stopAt := none }]
        = Tts.TtsAction.setTtsActive true :: mid ++ [Tts.TtsAction.setTtsActive false]
      ∧ ∀ a ∈ mid, ∃ m, a = Tts.TtsAction.publish m :=
  ⟨by decide,
   c5_flag_tracks_processor_lifetime "conv1"
     [{ text_to_speak := "Hi.", yields := [Tts.SynthYield.chunk [7]], stopAt := none }]
     (by decide)⟩

theorem audioChunks_runItemLoop (cid : String) (yields : List Tts.SynthYield) :
    ∀ (idx count : Nat),
      Tts.audioChunksOfMsgs (Tts.runItemLoop cid none yields idx count)
        = Tts.publishedChunks yields := by
  induction yields with
  | nil =>
    intro idx count
    simp [Tts.runItemLoop, Tts.stopSet, Tts.audioChunksOfMsgs, Tts.publishedChunks]
  | cons y rest ih =>
    intro idx count
    cases y with
    | raised e =>
      simp [Tts.runItemLoop, Tts.audioChunksOfMsgs, Tts.publishedChunks]
    | chunk c =>
      by_cases hc : c = []
      · simp [Tts.runItemLoop, Tts.stopSet, hc, Tts.audioChunksOfMsgs,
          Tts.publishedChunks]
        exact ih (idx + 1) count
      · simp [Tts.runItemLoop, Tts.stopSet, hc, Tts.audioChunksOfMsgs,
          Tts.publishedChunks]
        exact ih (idx + 1) (count + 1)

theorem audioChunksOfMsgs_execItem (cid text : String)
    (yields : List Tts.SynthYield) :
    Tts.audioChunksOfMsgs (Tts._execute_single_tts_item cid text yields none)
      = Tts.publishedChunks yields := by
  have hhead : Tts.audioChunksOfMsgs
      (Tts.OutMsg.audio_stream_start cid text :: Tts.runItemLoop cid none yields 0 0)
      = Tts.audioChunksOfMsgs (Tts.runItemLoop cid none yields 0 0) := by
    simp [Tts.audioChunksOfMsgs]
  rw [show Tts._execute_single_tts_item cid text yields none
      = Tts.OutMsg.audio_stream_start cid text :: Tts.runItemLoop cid none yields 0 0
      from rfl, hhead]
  exact audioChunks_runItemLoop cid yields 0 0

theorem audioChunks_append (a b : List Tts.TtsAction) :
    Tts.audioChunks (a ++ b) = Tts.audioChunks a ++ Tts.audioChunks b := by
  simp [Tts.audioChunks]

theorem audioChunks_map_publish (msgs : List Tts.OutMsg) :
    Tts.audioChunks (msgs.map Tts.TtsAction.publish) = Tts.audioChunksOfMsgs msgs := by
  induction msgs with
  | nil => rfl
  | cons m rest ih =>
    cases m <;> simp [Tts.audioChunks, Tts.audioChunksOfMsgs] at ih ⊢ <;> exact ih

/-- C3 — for a conversation whose TTS request channel delivers `r1` then
`r2` (enqueued in that order by `process_tts_request` into the FIFO queue)
and where neither item is cancelled (no stop event is ever set), the single
per-conversation processor drains the queue one item at a time, so the
audio chunks published on the conversation's output topic are exactly the
chunks of `r1` followed by the chunks of `r2`: all of `r1`'s chunks precede
all of `r2`'s. -/
theorem c3_fifo_serialized_synthesis (cid t1 t2 : String)
    (y1 y2 : List Tts.SynthYield) :
    Tts.audioChunks
      (Tts._process_conversation_tts_queue cid false
        (Tts.process_tts_request
          (Tts.process_tts_request [] { text_to_speak := t1, yields := y1, stopAt := none })
          { text_to_speak := t2, yields := y2, stopAt := none }))
      = Tts.publishedChunks y1 ++ Tts.publishedChunks y2 := by
  have hq : Tts.process_tts_request
      (Tts.process_tts_request [] { text_to_speak := t1, yields := y1, stopAt := none })
      { text_to_speak := t2, yields := y2, stopAt := none }
      = [{ text_to_speak := t1, yields := y1, stopAt := none },
         { text_to_speak := t2, yields := y2, stopAt := none }] := rfl
  rw [hq]
  have hrun : Tts._process_conversation_tts_queue cid false
      [{ text_to_speak := t1, yields := y1, stopAt := none },
       { text_to_speak := t2, yields := y2, stopAt := none }]
      = [Tts.TtsAction.setTtsActive true]
        ++ (Tts._execute_single_tts_item cid t1 y1 none).map Tts.TtsAction.publish
        ++ ((Tts._execute_single_tts_item cid t2 y2 none).map Tts.TtsAction.publish
            ++ [Tts.TtsAction.setTtsActive false]) := by
    simp [Tts._process_conversation_tts_queue]
  rw [hrun, audioChunks_append, audioChunks_append, audioChunks_append,
    audioChunks_map_publish, audioChunks_map_publish,
    audioChunksOfMsgs_execItem, audioChunksOfMsgs_execItem]
  simp [Tts.audioChunks]

/-- C7 — for every conversation history whose length exceeds the bound
(`MAX_CONVERSATION_HISTORY * 2 = 20` messages) after the user message was
appended, and whose only `system` entry is the first message, the
orchestrator's trim keeps the original first (system) message, drops only
the oldest non-`system` entries (the block at positions `1 .. len - 20`),
produces a history of length exactly 20, and never reorders: the trimmed
history is the first message followed by the final 19 messages, and is a
sublist (order-preserving selection) of the original. -/
theorem c7_history_trim_bound (h : List Orch.Message)
    (hlen : Orch.MAX_CONVERSATION_HISTORY * 2 < h.length)
    (hsys : ∀ m ∈ h.drop 1, m.role ≠ "system") :
    (Orch.trimHistory h).length = Orch.MAX_CONVERSATION_HISTORY * 2
    ∧ (Orch.trimHistory h).head? = h.head?
    ∧ Orch.trimHistory h
        = h.take 1 ++ h.drop (h.length - (Orch.MAX_CONVERSATION_HISTORY * 2 - 1))
    ∧ (Orch.trimHistory h).Sublist h
    ∧ ∀ m ∈ (h.drop 1).take (h.length - Orch.MAX_CONVERSATION_HISTORY * 2),
        m.role ≠ "system" := by
  have hM : Orch.MAX_CONVERSATION_HISTORY = 10 := rfl
  cases h with
  | nil => simp [hM] at hlen
  | cons first t =>
    have hlen' : 20 < t.length + 1 := by
      simpa [hM] using hlen
    have htrim : Orch.trimHistory (first :: t)
        = first :: (first :: t).drop ((first :: t).length - 19) := by
      unfold Orch.trimHistory
      rw [if_pos hlen]
      rfl
    have hdrop : (first :: t).drop ((first :: t).length - 19)
        = t.drop (t.length - 19) := by
      have hx : (first :: t).length - 19 = (t.length - 19) + 1 := by
        simp; omega
      rw [hx, List.drop_succ_cons]
    refine ⟨?_, ?_, ?_, ?_, ?_⟩
    · rw [htrim, hdrop]
      simp [hM]
      omega
    · rw [htrim]; rfl
    · rw [htrim]
      simp [hM, hdrop]
    · rw [htrim, hdrop]
      exact (List.drop_sublist _ t).cons₂ first
    · intro m hm
      exact hsys m (List.take_subset _ _ hm)

/-- Witness for C7 on a 21-message history (system prompt plus 20 user
messages): the trim keeps the system head, drops the oldest user message
and returns exactly 20 messages in original order. -/
theorem c7_witness :
    (Orch.MAX_CONVERSATION_HISTORY * 2
      < (Orch.systemMessage
          :: List.replicate 20 { role := "user", content := some "hi" }
          : List Orch.Message).length)
    ∧ (∀ m ∈ (Orch.systemMessage
          :: List.replicate 20 ({ role := "user", content := some "hi" } : Orch.Message)).drop 1,
        m.role ≠ "system")
    ∧ (Orch.trimHistory (Orch.systemMessage
          :: List.replicate 20 { role := "user", content := some "hi" })).length
        = Orch.MAX_CONVERSATION_HISTORY * 2
    ∧ (Orch.trimHistory (Orch.systemMessage
          :: List.replicate 20 { role := "user", content := some "hi" })).head?
        = some Orch.systemMessage
    ∧ (Orch.trimHistory (Orch.systemMessage
          :: List.replicate 20 { role := "user", content := some "hi" })).Sublist
        (Orch.systemMessage :: List.replicate 20 { role := "user", content := some "hi" }) := by
  have H := c7_history_trim_bound
    (Orch.systemMessage :: List.replicate 20 { role := "user", content := some "hi" })
    (by decide) (by decide)
  exact ⟨by decide, by decide, H.1, H.2.1, H.2.2.2.1⟩

theorem consumePart_toolCalls (sentTok : String → List String) (acc : Orch.IterAcc)
    (p : Orch.StreamPart) :
    (Orch.consumePart sentTok acc p).toolCalls
      = acc.toolCalls ++ Orch.toolCallsOf [p] := by
  cases p <;> simp [Orch.consumePart, Orch.toolCallsOf]

theorem foldl_consumePart_toolCalls (sentTok : String → List String)
    (parts : List Orch.StreamPart) :
    ∀ acc : Orch.IterAcc,
      (parts.foldl (Orch.consumePart sentTok) acc).toolCalls
        = acc.toolCalls ++ Orch.toolCallsOf parts := by
  induction parts with
  | nil => intro acc; simp [Orch.toolCallsOf]
  | cons p rest ih =>
    intro acc
    rw [List.foldl_cons, ih, consumePart_toolCalls]
    cases p <;> simp [Orch.toolCallsOf]

theorem consumeStream_toolCalls (sentTok : String → List String)
    (parts : List Orch.StreamPart) :
    (Orch.consumeStream sentTok parts).toolCalls = Orch.toolCallsOf parts := by
  unfold Orch.consumeStream
  dsimp only
  split <;> simp [foldl_consumePart_toolCalls]

theorem toolLoop_caps (sentTok : String → List String)
    (gen : Nat → List Orch.StreamPart) (dispatch : Orch.ToolCall → Orch.Message)
    (hasErr : String → Bool)
    (hgen : ∀ i, Orch.toolCallsOf (gen i) ≠ []) :
    ∀ (fuel : Nat), 0 < fuel → ∀ (current : Nat) (history : List Orch.Message),
      ∃ pre h', Orch.toolLoopAux sentTok gen dispatch hasErr fuel current history
        = (pre ++ [Orch.OrchOut.ttsRequest Orch.toolLimitSentence], h', current + fuel) := by
  intro fuel
  induction fuel with
  | zero => intro h0; exact absurd h0 (by omega)
  | succ n ih =>
    intro _ current history
    have hne : ¬(Orch.consumeStream sentTok (gen current)).toolCalls = [] := by
      rw [consumeStream_toolCalls]; exact hgen current
    cases n with
    | zero =>
      simp only [Orch.toolLoopAux]
      simp only [if_neg hne, if_pos (rfl : (0 : Nat) = 0)]
      exact ⟨_, _, rfl⟩
    | succ m =>
      obtain ⟨pre, h', hrec⟩ := ih (Nat.succ_pos m) (current + 1)
        ((if (Orch.consumeStream sentTok (gen current)).content.trim ≠ ""
              ∨ (Orch.consumeStream sentTok (gen current)).toolCalls ≠ [] then
            history ++ [{ role := "assistant"
                          content := if (Orch.consumeStream sentTok (gen current)).content.trim ≠ ""
                            then some (Orch.consumeStream sentTok (gen current)).content.trim
                            else none
                          tool_calls := (Orch.consumeStream sentTok (gen current)).toolCalls }]
          else history)
          ++ (Orch.runToolCalls dispatch hasErr
                (Orch.consumeStream sentTok (gen current)).toolCalls).1)
      refine ⟨(Orch.consumeStream sentTok (gen current)).outs
        ++ (Orch.runToolCalls dispatch hasErr
              (Orch.consumeStream sentTok (gen current)).toolCalls).2 ++ pre, h', ?_⟩
      rw [Orch.toolLoopAux]
      simp only [if_neg hne, if_neg (Nat.succ_ne_zero m)]
      rw [hrec]
      simp only [Prod.mk.injEq, List.append_assoc, true_and, and_true, eq_self_iff_true]
      omega

/-- C6 — when the LLM emits tool calls on every loop pass, the
orchestrator's tool loop executes exactly `max_tool_recursion = 5`
iterations (the final value of `current_tool_recursion` is 5, so at most 5
LLM streams are consumed); on reaching the cap it publishes the sentence
`"[Tool processing limit reached]"` as a TTS request, exits the loop with
no further tool events for the turn (the TTS request is the last
publication before the history save), and still persists the updated
history (the `saveHistory` write is the final action). -/
theorem c6_tool_recursion_capped (sentTok : String → List String)
    (gen : Nat → List Orch.StreamPart) (dispatch : Orch.ToolCall → Orch.Message)
    (hasErr : String → Bool) (userText : String) (history0 : List Orch.Message)
    (hgen : ∀ i, Orch.toolCallsOf (gen i) ≠ []) :
    ∃ pre h',
      (Orch.process_llm_interaction sentTok gen dispatch hasErr userText history0).1
        = pre ++ [Orch.OrchOut.ttsRequest Orch.toolLimitSentence,
                  Orch.OrchOut.saveHistory h']
      ∧ Orch.interactionIterations sentTok gen dispatch hasErr userText history0
          = Orch.max_tool_recursion := by
  obtain ⟨pre, h', hloop⟩ := toolLoop_caps sentTok gen dispatch hasErr hgen
    Orch.max_tool_recursion (by norm_num [Orch.max_tool_recursion]) 0
    (Orch.trimHistory ((if history0 = [] then [Orch.systemMessage] else history0)
      ++ [{ role := "user", content := some userText }]))
  refine ⟨pre, h', ?_, ?_⟩
  · unfold Orch.process_llm_interaction
    dsimp only
    rw [hloop]
    simp
  · unfold Orch.interactionIterations
    dsimp only
    rw [hloop]
    simp [Orch.max_tool_recursion]

/-- Witness for C6: a constant LLM stream that always emits one tool call
and a tool executor that always succeeds drive the loop to the cap. -/
theorem c6_witness :
    (∀ i : Nat, Orch.toolCallsOf
        ((fun _ : Nat => [Orch.StreamPart.toolCall
            { id := "c1", name := "f", arguments := "" }]) i) ≠ [])
    ∧ ∃ pre h',
      (Orch.process_llm_interaction (fun _ => [])
          (fun _ : Nat => [Orch.StreamPart.toolCall
            { id := "c1", name := "f", arguments := "" }])
          (fun tc => { role := "tool", content := some "ok",
                       tool_call_id := some tc.id, name := some tc.name })
          (fun _ => false) "hi" []).1
        = pre ++ [Orch.OrchOut.ttsRequest Orch.toolLimitSentence,
                  Orch.OrchOut.saveHistory h']
      ∧ Orch.interactionIterations (fun _ => [])
          (fun _ : Nat => [Orch.StreamPart.toolCall
            { id := "c1", name := "f", arguments := "" }])
          (fun tc => { role := "tool", content := some "ok",
                       tool_call_id := some tc.id, name := some tc.name })
          (fun _ => false) "hi" []
          = Orch.max_tool_recursion := by
  have hg : ∀ i : Nat, Orch.toolCallsOf
      ((fun _ : Nat => [Orch.StreamPart.toolCall
        { id := "c1", name := "f", arguments := "" }]) i) ≠ [] := by
    intro i
    show Orch.toolCallsOf [Orch.StreamPart.toolCall
      { id := "c1", name := "f", arguments := "" }] ≠ []
    decide
  exact ⟨hg,
    c6_tool_recursion_capped (fun _ => [])
      (fun _ : Nat => [Orch.StreamPart.toolCall
        { id := "c1", name := "f", arguments := "" }])
      (fun tc => { role := "tool", content := some "ok",
                   tool_call_id := some tc.id, name := some tc.name })
      (fun _ => false) "hi" [] hg⟩

theorem processWindow_no_bad {V : Type}
    (vad : V → List ℚ → V × Except String Vad.SpeechDict)
    (asr : List ℚ → Except String (List String))
    (s : Vad.APState V) (w : List ℚ) :
    ((Vad.processWindow vad asr s w).2).filter Vad.badTranscript = [] := by
  unfold Vad.processWindow
  dsimp only
  cases hres : (vad s.vadState w).2 with
  | error e => simp [Vad.badTranscript]
  | ok sd =>
    dsimp only
    repeat' split
    all_goals simp_all [Vad.badTranscript, List.filter_append]

theorem foldl_windows_no_bad {V : Type}
    (vad : V → List ℚ → V × Except String Vad.SpeechDict)
    (asr : List ℚ → Except String (List String))
    (ws : List (List ℚ)) :
    ∀ (s : Vad.APState V) (evs : List Vad.APEvent),
      evs.filter Vad.badTranscript = [] →
      ((ws.foldl
          (fun acc w =>
            let r := Vad.processWindow vad asr acc.1 w
            (r.1, acc.2 ++ r.2))
          (s, evs)).2).filter Vad.badTranscript = [] := by
  induction ws with
  | nil => intro s evs h; exact h
  | cons w rest ih =>
    intro s evs h
    rw [List.foldl_cons]
    exact ih _ _ (by simp [List.filter_append, h, processWindow_no_bad])

theorem handleProcessorEvent_no_bad (ttsKey flag : Bool) (e : Vad.APEvent)
    (he : Vad.badTranscript e = false) :
    ((Vad.handleProcessorEvent ttsKey flag e).2).filter
      Vad.badPublishedTranscript = [] := by
  cases e with
  | transcript text isFin =>
    simp only [Vad.badTranscript, Bool.or_eq_false_iff, Bool.not_eq_false',
      beq_eq_false_iff_ne, ne_eq] at he
    obtain ⟨hfin, htext⟩ := he
    subst hfin
    simp [Vad.handleProcessorEvent, Vad.publish_transcript,
      Vad.badPublishedTranscript, htext]
  | vad_event status =>
    unfold Vad.handleProcessorEvent
    dsimp only
    split_ifs <;> simp [Vad.badPublishedTranscript]
  | procError m => simp [Vad.handleProcessorEvent]

theorem handleProcessorEvents_no_bad (ttsKey : Bool) (evs : List Vad.APEvent) :
    ∀ flag : Bool, (∀ e ∈ evs, Vad.badTranscript e = false) →
      ((Vad.handleProcessorEvents ttsKey flag evs).2).filter
        Vad.badPublishedTranscript = [] := by
  induction evs with
  | nil => intro flag h; simp [Vad.handleProcessorEvents]
  | cons e rest ih =>
    intro flag h
    rw [Vad.handleProcessorEvents]
    dsimp only
    rw [List.filter_append,
      handleProcessorEvent_no_bad ttsKey flag e (h e (List.mem_cons_self _ _)),
      ih _ (fun x hx => h x (List.mem_cons_of_mem _ hx))]
    rfl

/-- C9 — every transcript event the VAD/STT worker publishes is a final
transcript with non-empty text: for every VAD iterator, ASR operator,
processor state and raw audio chunk, the audio processor yields no
transcript event that is non-final or has empty text (it yields a
transcript only when the joined ASR text is non-empty, always flagged
final), and consequently every transcript payload the worker's event loop
publishes on the transcripts channel has type `final_transcript`,
`is_final = true`, and non-empty text — this implementation never emits
partial transcripts. -/
theorem c9_transcripts_always_final_nonempty {V : Type}
    (vad : V → List ℚ → V × Except String Vad.SpeechDict)
    (asr : List ℚ → Except String (List String))
    (s : Vad.APState V) (raw : List Nat) (ttsKey flag : Bool) :
    ((Vad.process_audio_chunk vad asr s raw).2).filter Vad.badTranscript = []
    ∧ ((Vad.handleProcessorEvents ttsKey flag
          (Vad.process_audio_chunk vad asr s raw).2).2).filter
        Vad.badPublishedTranscript = [] := by
  have h1 : ((Vad.process_audio_chunk vad asr s raw).2).filter Vad.badTranscript = [] := by
    unfold Vad.process_audio_chunk
    dsimp only
    split
    · simp
    · exact foldl_windows_no_bad vad asr _ _ [] rfl
  refine ⟨h1, handleProcessorEvents_no_bad ttsKey _ flag ?_⟩
  intro e he
  have := List.filter_eq_nil_iff.mp h1 e he
  simpa using this
